import Mathlib

/-!
Shallow embedding of the DEX usage ETL pipeline
(src/utils/utils.py and src/scripts/daily_etl.py).

Timestamps are modelled as natural numbers counting seconds since
0001-01-01 00:00:00 (proleptic Gregorian calendar, the calendar used by
Python's datetime).  A calendar day is the quotient by 86400.  Python's
datetime arithmetic (comparison, adding timedelta(days=1)) is exactly
arithmetic on this count of seconds.
-/

/-- Seconds in one day. -/
def secsPerDay : ℕ := 86400

/-- Calendar day (days since 0001-01-01) of an instant given in seconds. -/
def dayOf (t : ℕ) : ℕ := t / secsPerDay

/-- Leap-year test of the proleptic Gregorian calendar (as implemented by
Python's `calendar.isleap` / `datetime`). -/
def isLeap (y : ℕ) : Bool := y % 4 == 0 && (y % 100 != 0 || y % 400 == 0)

/-- Number of days in a month of a given year. -/
def daysInMonth (y m : ℕ) : ℕ :=
  if m = 2 then (if isLeap y then 29 else 28)
  else if m = 4 ∨ m = 6 ∨ m = 9 ∨ m = 11 then 30
  else 31

/-- Days in the months strictly before month `m` of year `y`. -/
def daysBeforeMonth (y m : ℕ) : ℕ :=
  (((List.range 12).map (fun i => daysInMonth y (i + 1))).take (m - 1)).sum

/-- Days in the years strictly before year `y` (year 1 is the first year). -/
def daysBeforeYear (y : ℕ) : ℕ :=
  365 * (y - 1) + (y - 1) / 4 + (y - 1) / 400 - (y - 1) / 100

/-- Day number (days since 0001-01-01) of a civil date. -/
def toDayNumber (y m d : ℕ) : ℕ :=
  daysBeforeYear y + daysBeforeMonth y m + (d - 1)

/-- Seconds since 0001-01-01 00:00:00 of a civil date and time of day. -/
def epochSecs (y mo d h mi s : ℕ) : ℕ :=
  toDayNumber y mo d * secsPerDay + h * 3600 + mi * 60 + s

/-- Numeric value of a decimal digit character. -/
def digitVal (c : Char) : ℕ := c.toNat - 48

/-- Models CPython `datetime.strptime(s, "%Y-%m-%d %H:%M:%S")` for the
fixed-width zero-padded form of that format: a 19-character string
YYYY-MM-DD HH:MM:SS whose fields are digits in the valid calendar ranges
(`datetime.strptime` is Python standard-library code, external to this
repository; a string this function rejects makes the real call raise
ValueError).  Returns the instant in seconds since 0001-01-01 00:00:00. -/
def parseTs (str : String) : Option ℕ :=
  match str.data with
  | [y1, y2, y3, y4, c1, m1, m2, c2, d1, d2, c3, h1, h2, c4, i1, i2, c5, s1, s2] =>
    if ([y1, y2, y3, y4, m1, m2, d1, d2, h1, h2, i1, i2, s1, s2].all Char.isDigit
        && c1 == '-' && c2 == '-' && c3 == ' ' && c4 == ':' && c5 == ':') then
      let y := 1000 * digitVal y1 + 100 * digitVal y2 + 10 * digitVal y3 + digitVal y4
      let mo := 10 * digitVal m1 + digitVal m2
      let d := 10 * digitVal d1 + digitVal d2
      let h := 10 * digitVal h1 + digitVal h2
      let mi := 10 * digitVal i1 + digitVal i2
      let s := 10 * digitVal s1 + digitVal s2
      if 1 ≤ y ∧ 1 ≤ mo ∧ mo ≤ 12 ∧ 1 ≤ d ∧ d ≤ daysInMonth y mo
          ∧ h ≤ 23 ∧ mi ≤ 59 ∧ s ≤ 59 then
        some (epochSecs y mo d h mi s)
      else none
    else none
  | _ => none

/-- Civil date (year, month, day) of a day number (days since 0001-01-01);
the standard era-based conversion, used only to render dates in path
patterns the way `strftime("%Y-%m-%d")` does. -/
def civilFromDays (z : ℕ) : ℕ × ℕ × ℕ :=
  let d0 := z + 306
  let era := d0 / 146097
  let doe := d0 % 146097
  let yoe := (doe - doe / 1460 + doe / 36524 - doe / 146096) / 365
  let y0 := yoe + era * 400
  let doy := doe - (365 * yoe + yoe / 4 - yoe / 100)
  let mp := (5 * doy + 2) / 153
  let dd := doy - (153 * mp + 2) / 5 + 1
  let mm := if mp < 10 then mp + 3 else mp - 9
  (if mm ≤ 2 then y0 + 1 else y0, mm, dd)

/-- Left-pad the decimal rendering of `n` with zeros to width `w`. -/
def padNum (w n : ℕ) : String :=
  let s := toString n
  String.mk (List.replicate (w - s.length) '0') ++ s

/-- Rendering of the calendar day of an instant as YYYY-MM-DD
(`strftime("%Y-%m-%d")`). -/
def renderDate (day : ℕ) : String :=
  match civilFromDays day with
  | (y, m, d) => padNum 4 y ++ "-" ++ padNum 2 m ++ "-" ++ padNum 2 d

/-- The body of the day-pattern loop of `get_files_for_suffix`
(src/utils/utils.py lines 100-108), written with an explicit iteration
bound `fuel` so that the recursion is structural: while the current
instant does not exceed the end instant, emit the calendar day of the
current instant and advance by one day (86400 seconds).  Any
`fuel ≥ endT + 1 - cur` runs the loop to completion, since each
iteration advances `cur` by 86400 ≥ 1. -/
def dayLoop : ℕ → ℕ → ℕ → List ℕ
  | 0, _, _ => []
  | fuel + 1, cur, endT =>
    if cur ≤ endT then dayOf cur :: dayLoop fuel (cur + secsPerDay) endT
    else []

/-- The day-pattern loop of `get_files_for_suffix`: the emitted day
numbers in order, one per iteration of the while loop. -/
def dayPatterns (cur endT : ℕ) : List ℕ := dayLoop (endT + 1 - cur) cur endT

/-- Errors of the source locator: the taxonomy of the spec.
`get_files_for_suffix` raises ValueError in both cases; the parse failure
is re-raised with a format message ("时间格式错误…", InvalidFormatError),
the reversed range with the range message ("开始时间不能晚于结束时间",
InvalidRangeError). -/
inductive LocError where
  | invalidFormat : LocError
  | invalidRange : LocError
deriving DecidableEq

/-- One file pattern of the loop body:
`strftime("date=%Y-%m-%d/hour=*/*" + suffix)`. -/
def mkDayPattern (day : ℕ) (suffix : String) : String :=
  "date=" ++ renderDate day ++ "/hour=*/*" ++ suffix

/-- Embedding of `get_files_for_suffix` (src/utils/utils.py lines 81-114):
parse both timestamps (failure of either is the format error), reject
begin > end as the range error, otherwise run the day loop. -/
def getFilesForSuffix (beginTime endTime suffix : String) :
    Except LocError (List String) :=
  match parseTs beginTime, parseTs endTime with
  | some sb, some se =>
    if sb > se then .error .invalidRange
    else .ok ((dayPatterns sb se).map (fun d => mkDayPattern d suffix))
  | _, _ => .error .invalidFormat

/-- Embedding of `get_parquet_files` (src/utils/utils.py lines 10-27):
prefix every day pattern with the chain-specific root
`/server/data/parquet/chain={chain_id}/`. -/
def getParquetFiles (chainId beginTime endTime : String) :
    Except LocError (List String) :=
  (getFilesForSuffix beginTime endTime ".parquet").map
    (List.map (fun f => "/server/data/parquet/chain=" ++ chainId ++ "/" ++ f))

/-- Errors of the query builder (`generate_union_sql` raises ValueError
"文件路径数组不能为空" on an empty path list; the spec names it
EmptyInputError). -/
inductive QbError where
  | emptyInput : QbError
deriving DecidableEq

/-- One SELECT term of the union:
`SELECT * FROM read_{file_format}("{file_path}")`. -/
def readTerm (fileFormat filePath : String) : String :=
  "SELECT * FROM read_" ++ fileFormat ++ "(\"" ++ filePath ++ "\")"

/-- Python's `sep.join(parts)`: the empty string on no parts, otherwise
the first part followed by `sep ++ part` for every later part. -/
def pyJoin (sep : String) : List String → String
  | [] => ""
  | x :: xs => xs.foldl (fun acc y => acc ++ sep ++ y) x

/-- Embedding of `generate_union_sql` (src/utils/utils.py lines 59-78):
reject an empty list, otherwise join one read term per path with
" UNION ALL " in input order. -/
def generateUnionSql (filePaths : List String) (fileFormat : String) :
    Except QbError String :=
  match filePaths with
  | [] => .error .emptyInput
  | _ => .ok (pyJoin " UNION ALL "
      (filePaths.map (fun p => readTerm fileFormat p)))

/-- Embedding of `generate_union_sql_from_parquet`
(src/utils/utils.py lines 46-56). -/
def generateUnionSqlFromParquet (filePaths : List String) :
    Except QbError String :=
  generateUnionSql filePaths "parquet"

-- Basic facts about the day loop.

theorem dayLoop_of_stop (fuel cur endT : ℕ) (h : ¬ cur ≤ endT) :
    dayLoop fuel cur endT = [] := by
  cases fuel with
  | zero => rfl
  | succ n => simp [dayLoop, h]

theorem dayLoop_length : ∀ (fuel cur endT : ℕ), cur ≤ endT → endT + 1 - cur ≤ fuel →
    (dayLoop fuel cur endT).length = (endT - cur) / secsPerDay + 1 := by
  intro fuel
  induction fuel with
  | zero => intro cur endT h hf; omega
  | succ n ih =>
    intro cur endT h hf
    rw [dayLoop, if_pos h]
    by_cases h2 : cur + secsPerDay ≤ endT
    · rw [List.length_cons, ih (cur + secsPerDay) endT h2 (by simp only [secsPerDay] at h2 ⊢; omega)]
      simp only [secsPerDay] at h2 ⊢
      omega
    · rw [dayLoop_of_stop n (cur + secsPerDay) endT h2]
      simp only [secsPerDay] at h2 ⊢
      simp
      omega

theorem dayLoop_get? : ∀ (fuel cur endT k : ℕ), cur ≤ endT → endT + 1 - cur ≤ fuel →
    k ≤ (endT - cur) / secsPerDay →
    (dayLoop fuel cur endT).get? k = some (dayOf cur + k) := by
  intro fuel
  induction fuel with
  | zero => intro cur endT k h hf hk; omega
  | succ n ih =>
    intro cur endT k h hf hk
    rw [dayLoop, if_pos h]
    cases k with
    | zero => simp
    | succ k =>
      rw [List.get?_cons_succ]
      by_cases h2 : cur + secsPerDay ≤ endT
      · rw [ih (cur + secsPerDay) endT k h2 (by simp only [secsPerDay] at h2 ⊢; omega)
          (by simp only [secsPerDay] at h2 hk ⊢; omega)]
        simp only [dayOf, secsPerDay]
        congr 1
        omega
      · simp only [secsPerDay] at h2 hk
        omega

/-- The day loop emits one pattern per whole day step fitting in the
window: `(endT - cur) / 86400 + 1` of them when `cur ≤ endT`. -/
theorem dayPatterns_length (cur endT : ℕ) (h : cur ≤ endT) :
    (dayPatterns cur endT).length = (endT - cur) / secsPerDay + 1 :=
  dayLoop_length (endT + 1 - cur) cur endT h le_rfl

/-- The k-th emitted day is `dayOf cur + k`. -/
theorem dayPatterns_get? (cur endT k : ℕ) (h : cur ≤ endT)
    (hk : k ≤ (endT - cur) / secsPerDay) :
    (dayPatterns cur endT).get? k = some (dayOf cur + k) :=
  dayLoop_get? (endT + 1 - cur) cur endT k h le_rfl hk

/-!
Extraction Engine (src/scripts/daily_etl.py, `extract_dex_usage`).

A source record is one row of the parquet relation: a calendar day, an
hour, an order identifier, the nullable structured `request` payload
(route plans → sub-routers → dex entries), and the input/output token
fields.  The three SQL aggregation queries are embedded as list
functions over these records; ORDER BY clauses only permute the grouped
output rows and are not modelled (every property proved below is
invariant under permutation of the result rows).
-/

/-- One leaf dex entry: `JSON_EXTRACT(dex.value, '$.dex')` (nullable) and
`$.weight`. -/
structure DexEntry where
  dex : Option String
  weight : Int
deriving DecidableEq

/-- One sub-router: its array of dex entries (`$.dexes`). -/
structure SubRouter where
  dexes : List DexEntry
deriving DecidableEq

/-- One route plan: its array of sub-routers (`$.subRouters`). -/
structure RoutePlan where
  subRouters : List SubRouter
deriving DecidableEq

/-- The structured payload: `$.swapInfo.routePlans`. -/
structure SwapRequest where
  routePlans : List RoutePlan
deriving DecidableEq

/-- One row of the source parquet relation. -/
structure SourceRecord where
  date : ℕ
  hour : ℕ
  orderId : ℕ
  request : Option SwapRequest
  inputToken : String
  outputToken : String
deriving DecidableEq

/-- The single-quote character, written by code point to keep SQL text
verbatim. -/
def apos : String := String.singleton (Char.ofNat 39)

/-- The generated exclusion filter string (daily_etl.py lines 93-97):
`" AND ".join(f"inputToken != '{t}' AND outputToken != '{t}'" for t in
excluded_tokens)`. -/
def exclusionFilter (excludedTokens : List String) : String :=
  String.intercalate " AND "
    (excludedTokens.map (fun t =>
      "inputToken != " ++ apos ++ t ++ apos ++ " AND outputToken != " ++ apos ++ t ++ apos))

/-- The WHERE clause of all three queries as a predicate on records:
`request IS NOT NULL AND {exclusion_filter}` — the record passes iff its
payload is non-null and, for EVERY excluded token, both the input token
and the output token differ from it. -/
def keepRecord (excludedTokens : List String) (r : SourceRecord) : Bool :=
  r.request.isSome &&
    excludedTokens.all (fun t =>
      decide (r.inputToken ≠ t) && decide (r.outputToken ≠ t))

/-- Strips literal double-quote characters from an extracted dex name:
`REPLACE(dex_name, '"', '')`. -/
def stripQuotes (s : String) : String :=
  String.mk (s.data.filter (fun c => decide (c ≠ '"')))

/-- One flattened leaf row of the nested-unnest chain
(route plans → sub-routers → dexes), keeping the record's grouping keys;
leaves with a null dex name are discarded, and the name is
quote-stripped. -/
structure Leaf where
  date : ℕ
  hour : ℕ
  orderId : ℕ
  dexName : String
  weight : Int
deriving DecidableEq

/-- The cartesian three-level expansion of one record's payload into leaf
rows (the `JSON_EACH` chain of the queries). -/
def recordLeaves (r : SourceRecord) : List Leaf :=
  match r.request with
  | none => []
  | some req =>
    (req.routePlans.map (fun rp =>
      (rp.subRouters.map (fun sr =>
        sr.dexes.filterMap (fun d =>
          d.dex.map (fun nm =>
            ⟨r.date, r.hour, r.orderId, stripQuotes nm, d.weight⟩)))).flatten)).flatten

/-- The flattened leaf set of the filtered relation, shared by all three
aggregations. -/
def extractedLeaves (excludedTokens : List String) (rows : List SourceRecord) :
    List Leaf :=
  ((rows.filter (keepRecord excludedTokens)).map recordLeaves).flatten

/-- Round to two decimals, half up: `ROUND(x, 2)` of DuckDB on the
non-negative operands produced here. -/
def round2 (q : ℚ) : ℚ := (⌊q * 100 + 1 / 2⌋ : ℤ) / 100

/-- One row of `dex_usage_hourly` (also the shape of the hourly
extraction result). -/
structure HourlyRow where
  chain_id : String
  date : ℕ
  hour : ℕ
  dex_name : String
  usage_count : ℕ
  total_weight : Int
  unique_orders : ℕ
deriving DecidableEq

/-- One row of `dex_usage_daily` (also the shape of the daily extraction
result). -/
structure DailyRow where
  chain_id : String
  date : ℕ
  dex_name : String
  usage_count : ℕ
  total_weight : Int
  unique_orders : ℕ
  percentage : ℚ
deriving DecidableEq

/-- One row of the window-level total extraction result. -/
structure WindowTotalRow where
  chain_id : String
  dex_name : String
  usage_count : ℕ
  total_weight : Int
  unique_orders : ℕ
  percentage : ℚ
deriving DecidableEq

/-- The hourly query: group the leaves by (date, hour, dex_name); count
leaves, sum weights, count distinct order ids. -/
def hourlyAgg (chainId : String) (excludedTokens : List String)
    (rows : List SourceRecord) : List HourlyRow :=
  let leaves := extractedLeaves excludedTokens rows
  let keys := (leaves.map (fun l => (l.date, l.hour, l.dexName))).dedup
  keys.map (fun key =>
    let g := leaves.filter (fun l => decide ((l.date, l.hour, l.dexName) = key))
    { chain_id := chainId, date := key.1, hour := key.2.1, dex_name := key.2.2,
      usage_count := g.length,
      total_weight := (g.map (fun l => l.weight)).sum,
      unique_orders := ((g.map (fun l => l.orderId)).dedup).length })

/-- The daily query: group the leaves by (date, dex_name); the three
metrics plus the share of the date's leaf count, rounded to 2 decimals. -/
def dailyAgg (chainId : String) (excludedTokens : List String)
    (rows : List SourceRecord) : List DailyRow :=
  let leaves := extractedLeaves excludedTokens rows
  let keys := (leaves.map (fun l => (l.date, l.dexName))).dedup
  keys.map (fun key =>
    let g := leaves.filter (fun l => decide ((l.date, l.dexName) = key))
    let dateTotal := (leaves.filter (fun l => decide (l.date = key.1))).length
    { chain_id := chainId, date := key.1, dex_name := key.2,
      usage_count := g.length,
      total_weight := (g.map (fun l => l.weight)).sum,
      unique_orders := ((g.map (fun l => l.orderId)).dedup).length,
      percentage := round2 ((g.length : ℚ) * 100 / (dateTotal : ℚ)) })

/-- The total query: group the leaves by dex_name only; the three metrics
plus the window-relative share of all leaves, rounded to 2 decimals. -/
def totalAgg (chainId : String) (excludedTokens : List String)
    (rows : List SourceRecord) : List WindowTotalRow :=
  let leaves := extractedLeaves excludedTokens rows
  let keys := (leaves.map (fun l => l.dexName)).dedup
  keys.map (fun nm =>
    let g := leaves.filter (fun l => decide (l.dexName = nm))
    { chain_id := chainId, dex_name := nm,
      usage_count := g.length,
      total_weight := (g.map (fun l => l.weight)).sum,
      unique_orders := ((g.map (fun l => l.orderId)).dedup).length,
      percentage := round2 ((g.length : ℚ) * 100 / (leaves.length : ℚ)) })

/-!
Merge/Load Engine and Run Ledger (src/scripts/daily_etl.py,
`load_data`, `log_etl_run`, `process_single_day`).

Database tables are lists of rows; `run_date` is a calendar day number;
`now` stands for CURRENT_TIMESTAMP at load time.  The "no data" sentinel
(a Python None DataFrame) is `Option.none`.
-/

/-- One row of `dex_usage_total`.  `first_seen` is a nullable DATE,
`last_updated` a timestamp defaulting to CURRENT_TIMESTAMP on insert. -/
structure TotalRow where
  chain_id : String
  dex_name : String
  usage_count : ℕ
  total_weight : Int
  unique_orders : ℕ
  percentage : ℚ
  first_seen : Option ℕ
  last_updated : ℕ
deriving DecidableEq

/-- One row of `etl_run_log`. -/
structure EtlLogRow where
  run_id : ℕ
  chain_id : String
  run_date : ℕ
  status : String
  records_processed : ℕ
  error_message : Option String
deriving DecidableEq

/-- The PRIMARY KEY of `dex_usage_hourly`
(init_database.py line 42): (chain_id, date, hour, dex_name). -/
def hourlyKey (r : HourlyRow) : String × ℕ × ℕ × String :=
  (r.chain_id, r.date, r.hour, r.dex_name)

/-- The PRIMARY KEY of `dex_usage_daily`
(init_database.py line 58): (chain_id, date, dex_name). -/
def dailyKey (r : DailyRow) : String × ℕ × String :=
  (r.chain_id, r.date, r.dex_name)

/-- The message of the duplicate-key ConstraintException the engine
raises when an INSERT violates a declared PRIMARY KEY. -/
def dupKeyError : String :=
  "Constraint Error: duplicate key violates primary key constraint"

/-- The hourly load (daily_etl.py lines 300-314): if the hourly result is
the sentinel or empty, do nothing; otherwise delete every
`dex_usage_hourly` row whose chain_id is the first result row's chain and
whose date equals `run_date`, then bulk-insert all result rows.  The
INSERT enforces the table's PRIMARY KEY: if an inserted row's key equals
another inserted row's key or a surviving row's key, the statement
raises a duplicate-key ConstraintException and inserts nothing.  The
DELETE and the INSERT are separate autocommitted statements, so a failed
INSERT leaves the deletion in place.  Returns the resulting table and
the raised error, if any. -/
def loadHourly (tbl : List HourlyRow) (df : Option (List HourlyRow))
    (runDate : ℕ) : List HourlyRow × Option String :=
  match df with
  | none => (tbl, none)
  | some [] => (tbl, none)
  | some (r0 :: rs) =>
    let kept := tbl.filter (fun x =>
      !(decide (x.chain_id = r0.chain_id) && decide (x.date = runDate)))
    if ((r0 :: rs).map hourlyKey).Nodup ∧
        ∀ r ∈ r0 :: rs, ∀ x ∈ kept, hourlyKey x ≠ hourlyKey r then
      (kept ++ (r0 :: rs), none)
    else
      (kept, some dupKeyError)

/-- The daily load (daily_etl.py lines 316-329): same delete-then-insert
keyed on (chain_id, run_date), with the `dex_usage_daily` PRIMARY KEY
enforced by the INSERT exactly as in `loadHourly`. -/
def loadDaily (tbl : List DailyRow) (df : Option (List DailyRow))
    (runDate : ℕ) : List DailyRow × Option String :=
  match df with
  | none => (tbl, none)
  | some [] => (tbl, none)
  | some (r0 :: rs) =>
    let kept := tbl.filter (fun x =>
      !(decide (x.chain_id = r0.chain_id) && decide (x.date = runDate)))
    if ((r0 :: rs).map dailyKey).Nodup ∧
        ∀ r ∈ r0 :: rs, ∀ x ∈ kept, dailyKey x ≠ dailyKey r then
      (kept ++ (r0 :: rs), none)
    else
      (kept, some dupKeyError)

/-- The lookup of an existing `dex_usage_total` row by (chain_id,
dex_name): the first matching row, as `fetchone` returns. -/
def findTotal (tbl : List TotalRow) (chainId dexName : String) :
    Option TotalRow :=
  tbl.find? (fun r =>
    decide (r.chain_id = chainId) && decide (r.dex_name = dexName))

/-- The row inserted by the INSERT branch of the total upsert: the window
values as-is, first_seen = run_date, and the schema default
last_updated = CURRENT_TIMESTAMP. -/
def insertedTotalRow (w : WindowTotalRow) (runDate now : ℕ) : TotalRow :=
  { chain_id := w.chain_id, dex_name := w.dex_name,
    usage_count := w.usage_count, total_weight := w.total_weight,
    unique_orders := w.unique_orders, percentage := w.percentage,
    first_seen := some runDate, last_updated := now }

/-- One iteration of the total upsert loop (daily_etl.py lines 336-362):
if a row with the same (chain_id, dex_name) exists, add the window
counters onto every matching row (usage_count is set to the fetched
value plus the window value) and refresh last_updated; otherwise insert
a new row carrying the window values, first_seen = run_date, and the
schema default last_updated = CURRENT_TIMESTAMP. -/
def mergeTotalRow (tbl : List TotalRow) (w : WindowTotalRow)
    (runDate now : ℕ) : List TotalRow :=
  match findTotal tbl w.chain_id w.dex_name with
  | some ex =>
    tbl.map (fun r =>
      if decide (r.chain_id = w.chain_id) && decide (r.dex_name = w.dex_name) then
        { r with usage_count := ex.usage_count + w.usage_count,
                 total_weight := r.total_weight + w.total_weight,
                 unique_orders := r.unique_orders + w.unique_orders,
                 last_updated := now }
      else r)
  | none =>
    tbl ++ [insertedTotalRow w runDate now]

/-- The scalar subquery of the percentage recomputation: the chain-wide
sum of usage_count (daily_etl.py lines 368-372). -/
def chainUsageSum (tbl : List TotalRow) (chainId : String) : ℕ :=
  ((tbl.filter (fun r => decide (r.chain_id = chainId))).map
    (fun r => r.usage_count)).sum

/-- The per-row SET clause of the percentage recomputation, applied to
the rows of the chain: percentage = ROUND(usage_count * 100 / s, 2). -/
def pctUpdate (s : ℕ) (chainId : String) (r : TotalRow) : TotalRow :=
  if decide (r.chain_id = chainId) then
    { r with percentage := round2 ((r.usage_count : ℚ) * 100 / (s : ℚ)) }
  else r

/-- The chain-scoped percentage recomputation (daily_etl.py lines
364-374): every `dex_usage_total` row of the chain gets
percentage = ROUND(usage_count * 100 / chain-wide usage sum, 2). -/
def recomputePct (tbl : List TotalRow) (chainId : String) : List TotalRow :=
  tbl.map (pctUpdate (chainUsageSum tbl chainId) chainId)

/-- The total load (daily_etl.py lines 331-376): sentinel or empty is a
no-op; otherwise upsert every window row in order, then recompute the
percentages of the chain of the first window row. -/
def loadTotal (tbl : List TotalRow) (df : Option (List WindowTotalRow))
    (runDate now : ℕ) : List TotalRow :=
  match df with
  | none => tbl
  | some [] => tbl
  | some (w0 :: ws) =>
    recomputePct ((w0 :: ws).foldl (fun t w => mergeTotalRow t w runDate now) tbl)
      w0.chain_id

/-- The persistent state touched by one ETL run: the four tables plus the
`etl_run_log_seq` sequence value. -/
structure Database where
  hourly : List HourlyRow
  daily : List DailyRow
  total : List TotalRow
  ledger : List EtlLogRow
  nextRunId : ℕ
deriving DecidableEq

/-- Embedding of `load_data` (daily_etl.py lines 287-376): the hourly,
daily and total sub-loads in order.  A duplicate-key exception raised by
the hourly (or daily) INSERT propagates out of `load_data` at once, so
the later sub-loads do not run; the table changes made before the raise
remain (no cross-table transaction).  Returns the resulting state and
the raised error, if any. -/
def loadData (db : Database) (h : Option (List HourlyRow))
    (d : Option (List DailyRow)) (t : Option (List WindowTotalRow))
    (runDate now : ℕ) : Database × Option String :=
  match loadHourly db.hourly h runDate with
  | (h2, some e) => ({ db with hourly := h2 }, some e)
  | (h2, none) =>
    match loadDaily db.daily d runDate with
    | (d2, some e) => ({ db with hourly := h2, daily := d2 }, some e)
    | (d2, none) =>
      ({ db with hourly := h2, daily := d2,
                 total := loadTotal db.total t runDate now }, none)

/-- Embedding of `log_etl_run` (daily_etl.py lines 379-392): allocate the
next run_id from the sequence and append one immutable ledger row. -/
def logEtlRun (db : Database) (chainId : String) (runDate : ℕ)
    (status : String) (recordsProcessed : ℕ) (errorMessage : Option String) :
    Database :=
  { db with
    ledger := db.ledger ++
      [{ run_id := db.nextRunId, chain_id := chainId, run_date := runDate,
         status := status, records_processed := recordsProcessed,
         error_message := errorMessage }],
    nextRunId := db.nextRunId + 1 }

/-- Outcome of the extraction step for one chain: the three optional
result sets, or an uncaught exception carrying its message. -/
abbrev ExtractOutcome := Except String
  (Option (List HourlyRow) × Option (List DailyRow) × Option (List WindowTotalRow))

/-- The record count logged on a successful attempt: hourly row count
plus daily row count (0 for an absent result). -/
def okRecords (h : Option (List HourlyRow)) (d : Option (List DailyRow)) : ℕ :=
  (h.map List.length).getD 0 + (d.map List.length).getD 0

/-- The per-chain body of `process_single_day` (daily_etl.py lines
419-445): on an exception during extraction, or a constraint exception
raised by the load, the catch-all logs a `failed` row with the
stringified error (the partial table changes already made by the load
remain); otherwise it loads whichever results are present and logs a
`success` row whose record count is the number of hourly rows plus
daily rows (zero when everything was the "no data" sentinel, still
`success`). -/
def processChainDay (db : Database) (beh : String → ExtractOutcome)
    (chainId : String) (runDate now : ℕ) : Database :=
  match beh chainId with
  | .error e => logEtlRun db chainId runDate "failed" 0 (some e)
  | .ok (h, d, t) =>
    if h.isSome || d.isSome || t.isSome then
      match (loadData db h d t runDate now).2 with
      | some e => logEtlRun (loadData db h d t runDate now).1 chainId runDate
          "failed" 0 (some e)
      | none => logEtlRun (loadData db h d t runDate now).1 chainId runDate
          "success" (okRecords h d) none
    else
      logEtlRun db chainId runDate "success" 0 none

/-- The chain loop of `process_single_day` (daily_etl.py lines 395-447). -/
def processSingleDay (db : Database) (chains : List String)
    (beh : String → ExtractOutcome) (runDate now : ℕ) : Database :=
  chains.foldl (fun d c => processChainDay d beh c runDate now) db

/-- Embedding of `get_date_range` (daily_etl.py lines 36-53): truncate
the current UTC instant to midnight, go back `days_back` days for the
begin instant, and set the end instant one day after the begin instant.
The source returns these two instants formatted with
"%Y-%m-%d %H:%M:%S"; the embedding keeps them as instants. -/
def getDateRange (now : ℕ) (daysBack : ℕ) : ℕ × ℕ :=
  let endDate := dayOf now * secsPerDay
  let beginDate := endDate - daysBack * secsPerDay
  (beginDate, beginDate + secsPerDay)

/-- Embedding of `extract_dex_usage` (daily_etl.py lines 56-284) given
the already-located file patterns and the records the source files hold.
With no file patterns the function returns the all-sentinel triple (and
`generate_union_sql` raising on an empty list is caught by the same
early `except`, with the same result).  Each of the three queries embeds
the generated exclusion filter after `AND`; when that filter string is
empty the SQL text is syntactically invalid (`AND` with no right
operand), the database engine — external to this repository — rejects
it, and the per-query `except` turns that result into the sentinel.
The `if exclusionFilter … == ""` guard below models exactly that
engine-side parse failure. -/
def extractDexUsage (chainId : String) (files : List String)
    (src : List SourceRecord) (excludedTokens : List String) :
    Option (List HourlyRow) × Option (List DailyRow) × Option (List WindowTotalRow) :=
  match files with
  | [] => (none, none, none)
  | _ =>
    if exclusionFilter excludedTokens == "" then (none, none, none)
    else
      (some (hourlyAgg chainId excludedTokens src),
       some (dailyAgg chainId excludedTokens src),
       some (totalAgg chainId excludedTokens src))

/-!
Helper lemmas for the claims.
-/

theorem pyJoin_foldl_shift (sep : String) : ∀ (xs : List String) (a b : String),
    xs.foldl (fun acc y => acc ++ sep ++ y) (a ++ b) =
      a ++ xs.foldl (fun acc y => acc ++ sep ++ y) b := by
  intro xs
  induction xs with
  | nil => intro a b; rfl
  | cons x xs ih =>
    intro a b
    simp only [List.foldl_cons]
    rw [show a ++ b ++ sep ++ x = a ++ (b ++ sep ++ x) by
      simp [String.append_assoc]]
    exact ih a (b ++ sep ++ x)

theorem pyJoin_append (sep : String) (l1 l2 : List String)
    (h1 : l1 ≠ []) (h2 : l2 ≠ []) :
    pyJoin sep (l1 ++ l2) = pyJoin sep l1 ++ sep ++ pyJoin sep l2 := by
  match l1, l2 with
  | x :: xs, y :: ys =>
    show (xs ++ y :: ys).foldl (fun acc z => acc ++ sep ++ z) x = _
    rw [List.foldl_append, List.foldl_cons]
    exact pyJoin_foldl_shift sep ys (xs.foldl (fun acc z => acc ++ sep ++ z) x ++ sep) y

theorem dayPatterns_one_day (b : ℕ) :
    dayPatterns b (b + secsPerDay) = [dayOf b, dayOf b + 1] := by
  have hd : (b + secsPerDay - b) / secsPerDay = 1 := by
    simp only [secsPerDay]
    omega
  have hlen : (dayPatterns b (b + secsPerDay)).length = 2 := by
    rw [dayPatterns_length b (b + secsPerDay) (by omega), hd]
  apply List.ext_get?
  intro n
  match n with
  | 0 =>
    rw [dayPatterns_get? b (b + secsPerDay) 0 (by omega) (by omega)]
    rfl
  | 1 =>
    rw [dayPatterns_get? b (b + secsPerDay) 1 (by omega) (by rw [hd])]
    rfl
  | n + 2 =>
    rw [List.get?_eq_none.mpr (by rw [hlen]; omega),
      List.get?_eq_none.mpr (by simp)]

theorem loadHourly_keeps_other_dates (tbl : List HourlyRow)
    (df : Option (List HourlyRow)) (runDate : ℕ) (r : HourlyRow)
    (hr : r ∈ tbl) (hd : r.date ≠ runDate) :
    r ∈ (loadHourly tbl df runDate).1 := by
  match df with
  | none => exact hr
  | some [] => exact hr
  | some (r0 :: rs) =>
    have hkept : r ∈ tbl.filter (fun x =>
        !(decide (x.chain_id = r0.chain_id) && decide (x.date = runDate))) :=
      List.mem_filter.mpr ⟨hr, by simp [hd]⟩
    dsimp only [loadHourly]
    split
    · exact List.mem_append_left _ hkept
    · exact hkept

theorem loadDaily_keeps_other_dates (tbl : List DailyRow)
    (df : Option (List DailyRow)) (runDate : ℕ) (r : DailyRow)
    (hr : r ∈ tbl) (hd : r.date ≠ runDate) :
    r ∈ (loadDaily tbl df runDate).1 := by
  match df with
  | none => exact hr
  | some [] => exact hr
  | some (r0 :: rs) =>
    have hkept : r ∈ tbl.filter (fun x =>
        !(decide (x.chain_id = r0.chain_id) && decide (x.date = runDate))) :=
      List.mem_filter.mpr ⟨hr, by simp [hd]⟩
    dsimp only [loadDaily]
    split
    · exact List.mem_append_left _ hkept
    · exact hkept

/-!
Claims about the source locator and query builder.
-/

theorem getFilesForSuffix_eq_of_parse (b e suffix : String) (sb se : ℕ)
    (hb : parseTs b = some sb) (he : parseTs e = some se) :
    getFilesForSuffix b e suffix =
      if sb > se then .error .invalidRange
      else .ok ((dayPatterns sb se).map (fun d => mkDayPattern d suffix)) := by
  unfold getFilesForSuffix
  rw [hb, he]

/-- C7: for well-formed timestamps the locator fails with
InvalidRangeError exactly when begin_time > end_time (and succeeds
otherwise), and it fails with InvalidFormatError whenever either
timestamp does not parse with format YYYY-MM-DD HH:MM:SS. -/
theorem claim7_locator_error_taxonomy (b e suffix : String) :
    (∀ sb se, parseTs b = some sb → parseTs e = some se →
      ((getFilesForSuffix b e suffix = .error .invalidRange ↔ se < sb) ∧
       (¬ se < sb → ∃ l, getFilesForSuffix b e suffix = .ok l))) ∧
    (parseTs b = none ∨ parseTs e = none →
      getFilesForSuffix b e suffix = .error .invalidFormat) := by
  constructor
  · intro sb se hb he
    rw [getFilesForSuffix_eq_of_parse b e suffix sb se hb he]
    by_cases hlt : sb > se
    · rw [if_pos hlt]
      exact ⟨⟨fun _ => hlt, fun _ => rfl⟩, fun hn => absurd hlt hn⟩
    · rw [if_neg hlt]
      exact ⟨⟨fun hcontra => Except.noConfusion hcontra, fun hlt2 => absurd hlt2 hlt⟩,
        fun _ => ⟨_, rfl⟩⟩
  · intro h
    rcases h with h | h
    · rcases he : parseTs e with _ | se <;>
        simp [getFilesForSuffix, h, he]
    · rcases hb : parseTs b with _ | sb <;>
        simp [getFilesForSuffix, h, hb]

theorem claim7_witness :
    getFilesForSuffix "2024-01-05 00:00:00" "2024-01-01 00:00:00" ".parquet"
      = .error .invalidRange ∧
    getFilesForSuffix "2024-01-05" "2024-01-01 00:00:00" ".parquet"
      = .error .invalidFormat :=
  ⟨(((claim7_locator_error_taxonomy "2024-01-05 00:00:00" "2024-01-01 00:00:00"
      ".parquet").1 63840009600 63839664000 (by decide) (by decide)).1).mpr (by decide),
   (claim7_locator_error_taxonomy "2024-01-05" "2024-01-01 00:00:00" ".parquet").2
     (Or.inl (by decide))⟩

/-- C8: the query builder rejects an empty pattern list with
EmptyInputError; a single pattern yields exactly its read term; and for
non-empty halves the result of the concatenation is the two results
joined by one more UNION ALL, so the union keeps one read term per
input pattern, in input order, duplicates preserved. -/
theorem claim8_query_builder (fmt : String) :
    generateUnionSql [] fmt = .error .emptyInput ∧
    (∀ p, generateUnionSql [p] fmt = .ok (readTerm fmt p)) ∧
    (∀ ps qs, ps ≠ [] → qs ≠ [] →
      ∃ a b, generateUnionSql ps fmt = .ok a ∧ generateUnionSql qs fmt = .ok b ∧
        generateUnionSql (ps ++ qs) fmt = .ok (a ++ " UNION ALL " ++ b)) := by
  refine ⟨rfl, fun p => rfl, ?_⟩
  intro ps qs h1 h2
  match ps, qs with
  | x :: xs, y :: ys =>
    refine ⟨_, _, rfl, rfl, ?_⟩
    show Except.ok (pyJoin " UNION ALL "
      (((x :: xs) ++ (y :: ys)).map (fun p => readTerm fmt p))) = _
    rw [List.map_append, pyJoin_append " UNION ALL " _ _ (by simp) (by simp)]

theorem claim8_witness :
    ∃ a b, generateUnionSql ["p1"] "parquet" = .ok a ∧
      generateUnionSql ["p2"] "parquet" = .ok b ∧
      generateUnionSql (["p1"] ++ ["p2"]) "parquet" = .ok (a ++ " UNION ALL " ++ b) :=
  (claim8_query_builder "parquet").2.2 ["p1"] ["p2"] (by decide) (by decide)

/-- C6 (amended): for well-formed begin ≤ end the locator returns
`(end - begin) / 1 day + 1` patterns — which equals
`days_between(begin_date, end_date) + 1` whenever the end instant's time
of day is not earlier than the begin instant's (in particular for the
midnight-aligned windows the ETL builds), but not in general — and the
k-th pattern is the calendar day `begin_date + k` with hour and file
name wildcarded under the chain-specific root. -/
theorem claim6_locator_day_coverage (chainId b e : String) (sb se : ℕ)
    (hb : parseTs b = some sb) (he : parseTs e = some se) (hle : sb ≤ se) :
    ∃ fs, getParquetFiles chainId b e = .ok fs ∧
      fs.length = (se - sb) / secsPerDay + 1 ∧
      (sb % secsPerDay ≤ se % secsPerDay → fs.length = (dayOf se - dayOf sb) + 1) ∧
      ∀ k, k ≤ (se - sb) / secsPerDay →
        fs.get? k = some ("/server/data/parquet/chain=" ++ chainId ++ "/" ++
          mkDayPattern (dayOf sb + k) ".parquet") := by
  unfold getParquetFiles
  rw [getFilesForSuffix_eq_of_parse b e ".parquet" sb se hb he, if_neg (by omega)]
  refine ⟨_, rfl, ?_, ?_, ?_⟩
  · simp [dayPatterns_length sb se hle]
  · intro hmod
    simp only [List.length_map, dayPatterns_length sb se hle]
    simp only [dayOf, secsPerDay] at hmod ⊢
    omega
  · intro k hk
    rw [List.get?_map, List.get?_map, dayPatterns_get? sb se k hle hk]
    rfl

theorem claim6_witness :
    parseTs "2024-01-01 00:00:00" = some 63839664000 ∧
    parseTs "2024-01-02 00:00:00" = some 63839750400 ∧
    ∃ fs, getParquetFiles "sol" "2024-01-01 00:00:00" "2024-01-02 00:00:00" = .ok fs ∧
      fs.length = (63839750400 - 63839664000) / secsPerDay + 1 ∧
      (63839664000 % secsPerDay ≤ 63839750400 % secsPerDay →
        fs.length = (dayOf 63839750400 - dayOf 63839664000) + 1) ∧
      ∀ k, k ≤ (63839750400 - 63839664000) / secsPerDay →
        fs.get? k = some ("/server/data/parquet/chain=" ++ "sol" ++ "/" ++
          mkDayPattern (dayOf 63839664000 + k) ".parquet") :=
  ⟨by decide, by decide,
   claim6_locator_day_coverage "sol" "2024-01-01 00:00:00" "2024-01-02 00:00:00"
     63839664000 63839750400 (by decide) (by decide) (by decide)⟩

/-- C6 counterexample: for begin "2024-01-01 23:00:00" and end
"2024-01-02 01:00:00" (well-formed, begin ≤ end, spanning two calendar
days) the locator returns exactly one pattern, not
days_between + 1 = 2. -/
theorem claim6_counterexample :
    parseTs "2024-01-01 23:00:00" = some 63839746800 ∧
    parseTs "2024-01-02 01:00:00" = some 63839754000 ∧
    63839746800 ≤ 63839754000 ∧
    (dayOf 63839754000 - dayOf 63839746800) + 1 = 2 ∧
    (getParquetFiles "bsc" "2024-01-01 23:00:00" "2024-01-02 01:00:00").toOption.map
      List.length = some 1 := by
  refine ⟨by decide, by decide, by decide, by decide, ?_⟩
  decide

/-- C9: for days_back ≥ 1 (and a current instant at least days_back days
after the epoch), `get_date_range` returns midnight-aligned begin and end
instants exactly one day apart; the source locator's day loop on that
window emits exactly the two calendar days run_date and run_date + 1;
and the hourly/daily loads never delete a stored row whose date differs
from run_date. -/
theorem claim9_single_day_window (now daysBack b e : ℕ) (h1 : 1 ≤ daysBack)
    (h2 : daysBack * secsPerDay ≤ dayOf now * secsPerDay)
    (hbe : getDateRange now daysBack = (b, e)) :
    b % secsPerDay = 0 ∧ e % secsPerDay = 0 ∧ e = b + secsPerDay ∧
    dayPatterns b e = [dayOf b, dayOf b + 1] ∧
    (∀ tbl df r, r ∈ tbl → r.date ≠ dayOf b →
      r ∈ (loadHourly tbl df (dayOf b)).1) ∧
    (∀ tbl df r, r ∈ tbl → r.date ≠ dayOf b →
      r ∈ (loadDaily tbl df (dayOf b)).1) := by
  have hb2 : b = dayOf now * secsPerDay - daysBack * secsPerDay := by
    have hfst : (getDateRange now daysBack).1 = b := by rw [hbe]
    exact hfst.symm.trans rfl
  have he2 : e = b + secsPerDay := by
    have hsnd : (getDateRange now daysBack).2 = e := by rw [hbe]
    have hform : (getDateRange now daysBack).2 =
        dayOf now * secsPerDay - daysBack * secsPerDay + secsPerDay := rfl
    rw [← hsnd, hform, ← hb2]
  refine ⟨?_, ?_, he2, ?_, ?_, ?_⟩
  · rw [hb2]
    simp only [secsPerDay]
    omega
  · rw [he2, hb2]
    simp only [secsPerDay]
    omega
  · rw [he2]
    exact dayPatterns_one_day b
  · intro tbl df r hr hd
    exact loadHourly_keeps_other_dates tbl df (dayOf b) r hr hd
  · intro tbl df r hr hd
    exact loadDaily_keeps_other_dates tbl df (dayOf b) r hr hd

theorem claim9_witness :
    1 ≤ 1 ∧ 1 * secsPerDay ≤ dayOf 63839754000 * secsPerDay ∧
    getDateRange 63839754000 1 = (63839664000, 63839750400) ∧
    (63839664000 % secsPerDay = 0 ∧ 63839750400 % secsPerDay = 0 ∧
      63839750400 = 63839664000 + secsPerDay ∧
      dayPatterns 63839664000 63839750400 =
        [dayOf 63839664000, dayOf 63839664000 + 1] ∧
      (∀ tbl df r, r ∈ tbl → r.date ≠ dayOf 63839664000 →
        r ∈ (loadHourly tbl df (dayOf 63839664000)).1) ∧
      (∀ tbl df r, r ∈ tbl → r.date ≠ dayOf 63839664000 →
        r ∈ (loadDaily tbl df (dayOf 63839664000)).1)) :=
  ⟨by decide, by decide, by decide,
   claim9_single_day_window 63839754000 1 63839664000 63839750400
     (by decide) (by decide) (by decide)⟩

theorem filter_append_filter {α : Type} (p : α → Bool) (l m : List α)
    (hm : ∀ x ∈ m, p x = false) :
    (l.filter p ++ m).filter p = l.filter p := by
  rw [List.filter_append]
  have h1 : (l.filter p).filter p = l.filter p := by
    rw [List.filter_filter]
    apply List.filter_congr
    intro x hx
    rw [Bool.and_self]
  have h2 : m.filter p = [] := List.filter_eq_nil_iff.mpr (by
    intro a ha
    simp [hm a ha])
  rw [h1, h2, List.append_nil]

/-- C2 (amended): the hourly/daily load is an idempotent replace for
result sets whose rows all carry the chain of the first row and the
date run_date and have pairwise distinct primary keys (as the grouped
extraction output does) — re-invoking it with the identical input
succeeds and leaves the table exactly as after one invocation.  Without
the date restriction it is neither idempotent nor accumulating: a row
dated outside run_date survives the delete, so the second INSERT
violates the PRIMARY KEY and raises, leaving the freshly deleted
run_date rows missing (see the counterexample). -/
theorem claim2_load_replace_idempotent :
    (∀ (tbl : List HourlyRow) (r0 : HourlyRow) (rs : List HourlyRow) (runDate : ℕ),
      (∀ r ∈ r0 :: rs, r.chain_id = r0.chain_id ∧ r.date = runDate) →
      ((r0 :: rs).map hourlyKey).Nodup →
      loadHourly (loadHourly tbl (some (r0 :: rs)) runDate).1
        (some (r0 :: rs)) runDate =
        loadHourly tbl (some (r0 :: rs)) runDate) ∧
    (∀ (tbl : List DailyRow) (r0 : DailyRow) (rs : List DailyRow) (runDate : ℕ),
      (∀ r ∈ r0 :: rs, r.chain_id = r0.chain_id ∧ r.date = runDate) →
      ((r0 :: rs).map dailyKey).Nodup →
      loadDaily (loadDaily tbl (some (r0 :: rs)) runDate).1
        (some (r0 :: rs)) runDate =
        loadDaily tbl (some (r0 :: rs)) runDate) := by
  constructor
  · intro tbl r0 rs runDate hall hnd
    have hrowsf : ∀ x ∈ r0 :: rs, (fun x : HourlyRow =>
        !(decide (x.chain_id = r0.chain_id) && decide (x.date = runDate))) x
          = false := by
      intro r hr
      obtain ⟨hc, hd⟩ := hall r hr
      simp [hc, hd]
    have hclash : ∀ (t : List HourlyRow), ∀ r ∈ r0 :: rs,
        ∀ x ∈ t.filter (fun x =>
          !(decide (x.chain_id = r0.chain_id) && decide (x.date = runDate))),
        hourlyKey x ≠ hourlyKey r := by
      intro t r hr x hx hk
      obtain ⟨hc, hd⟩ := hall r hr
      have hpx := List.of_mem_filter hx
      simp only [hourlyKey, Prod.mk.injEq] at hk
      rw [hk.1, hk.2.1, hc, hd] at hpx
      simp at hpx
    have hload : ∀ (t : List HourlyRow),
        loadHourly t (some (r0 :: rs)) runDate =
          (t.filter (fun x =>
            !(decide (x.chain_id = r0.chain_id) && decide (x.date = runDate)))
            ++ (r0 :: rs), none) := by
      intro t
      dsimp only [loadHourly]
      rw [if_pos ⟨hnd, hclash t⟩]
    rw [hload tbl]
    show loadHourly (tbl.filter (fun x =>
      !(decide (x.chain_id = r0.chain_id) && decide (x.date = runDate)))
      ++ (r0 :: rs)) (some (r0 :: rs)) runDate = _
    rw [hload (tbl.filter (fun x =>
      !(decide (x.chain_id = r0.chain_id) && decide (x.date = runDate)))
      ++ (r0 :: rs))]
    rw [filter_append_filter _ tbl (r0 :: rs) hrowsf]
  · intro tbl r0 rs runDate hall hnd
    have hrowsf : ∀ x ∈ r0 :: rs, (fun x : DailyRow =>
        !(decide (x.chain_id = r0.chain_id) && decide (x.date = runDate))) x
          = false := by
      intro r hr
      obtain ⟨hc, hd⟩ := hall r hr
      simp [hc, hd]
    have hclash : ∀ (t : List DailyRow), ∀ r ∈ r0 :: rs,
        ∀ x ∈ t.filter (fun x =>
          !(decide (x.chain_id = r0.chain_id) && decide (x.date = runDate))),
        dailyKey x ≠ dailyKey r := by
      intro t r hr x hx hk
      obtain ⟨hc, hd⟩ := hall r hr
      have hpx := List.of_mem_filter hx
      simp only [dailyKey, Prod.mk.injEq] at hk
      rw [hk.1, hk.2.1, hc, hd] at hpx
      simp at hpx
    have hload : ∀ (t : List DailyRow),
        loadDaily t (some (r0 :: rs)) runDate =
          (t.filter (fun x =>
            !(decide (x.chain_id = r0.chain_id) && decide (x.date = runDate)))
            ++ (r0 :: rs), none) := by
      intro t
      dsimp only [loadDaily]
      rw [if_pos ⟨hnd, hclash t⟩]
    rw [hload tbl]
    show loadDaily (tbl.filter (fun x =>
      !(decide (x.chain_id = r0.chain_id) && decide (x.date = runDate)))
      ++ (r0 :: rs)) (some (r0 :: rs)) runDate = _
    rw [hload (tbl.filter (fun x =>
      !(decide (x.chain_id = r0.chain_id) && decide (x.date = runDate)))
      ++ (r0 :: rs))]
    rw [filter_append_filter _ tbl (r0 :: rs) hrowsf]

/-- Concrete hourly row dated run_date, for the C2 witness. -/
def c2HourlyRow : HourlyRow :=
  { chain_id := "sol", date := 738885, hour := 3, dex_name := "Raydium",
    usage_count := 10, total_weight := 30, unique_orders := 7 }

/-- Concrete daily row dated run_date, for the C2 witness. -/
def c2DailyRow : DailyRow :=
  { chain_id := "sol", date := 738885, dex_name := "Raydium",
    usage_count := 10, total_weight := 30, unique_orders := 7,
    percentage := 100 }

/-- Concrete hourly row dated run_date 738885, loaded together with
[[c2NextDayRow]] in the C2 counterexample. -/
def c2RunDateRow : HourlyRow :=
  { chain_id := "bsc", date := 738885, hour := 0, dex_name := "pancake",
    usage_count := 2, total_weight := 2, unique_orders := 2 }

/-- Concrete hourly row dated one day after run_date 738885, as the
two-day extraction window can produce, for the C2 counterexample. -/
def c2NextDayRow : HourlyRow :=
  { chain_id := "bsc", date := 738886, hour := 0, dex_name := "pancake",
    usage_count := 1, total_weight := 1, unique_orders := 1 }

theorem claim2_witness :
    (∀ r ∈ [c2HourlyRow], r.chain_id = c2HourlyRow.chain_id ∧ r.date = 738885) ∧
    ([c2HourlyRow].map hourlyKey).Nodup ∧
    (∀ r ∈ [c2DailyRow], r.chain_id = c2DailyRow.chain_id ∧ r.date = 738885) ∧
    ([c2DailyRow].map dailyKey).Nodup ∧
    loadHourly (loadHourly [] (some [c2HourlyRow]) 738885).1
      (some [c2HourlyRow]) 738885 = loadHourly [] (some [c2HourlyRow]) 738885 ∧
    loadDaily (loadDaily [] (some [c2DailyRow]) 738885).1
      (some [c2DailyRow]) 738885 = loadDaily [] (some [c2DailyRow]) 738885 :=
  ⟨by decide, by decide, by decide, by decide,
   claim2_load_replace_idempotent.1 [] c2HourlyRow [] 738885 (by decide) (by decide),
   claim2_load_replace_idempotent.2 [] c2DailyRow [] 738885 (by decide) (by decide)⟩

/-- C2 counterexample: loading the same extracted hourly result twice for
(chain "bsc", run_date 738885) does NOT leave the table as after one
load when the result contains a row dated 738886 (the second day of the
extraction window).  The second run deletes only the rows dated
738885 and its INSERT then collides with the surviving 738886 row's
primary key and raises the duplicate-key error, so the stored rows
differ — the run_date row deleted by the second run is gone. -/
theorem claim2_counterexample :
    (loadHourly (loadHourly [] (some [c2RunDateRow, c2NextDayRow]) 738885).1
        (some [c2RunDateRow, c2NextDayRow]) 738885).1 ≠
      (loadHourly [] (some [c2RunDateRow, c2NextDayRow]) 738885).1 ∧
    (loadHourly (loadHourly [] (some [c2RunDateRow, c2NextDayRow]) 738885).1
        (some [c2RunDateRow, c2NextDayRow]) 738885).2 = some dupKeyError ∧
    (loadHourly [] (some [c2RunDateRow, c2NextDayRow]) 738885).2 = none := by
  decide

/-!
The run-ledger guarantee of the orchestration loop.
-/

/-- The audit property of the single ledger row appended for one
(chain, run_date) attempt, relative to the database state `db` the
attempt ran on (the load's duplicate-key failure depends on that
state): a `failed` row with the stringified error when extraction or
load raised, otherwise a `success` row counting hourly plus daily
rows (0 for the all-sentinel "no data" outcome). -/
def ledgerRowSpec (db : Database) (beh : String → ExtractOutcome)
    (runDate now : ℕ) (c : String) (row : EtlLogRow) : Prop :=
  row.chain_id = c ∧ row.run_date = runDate ∧
  (match beh c with
   | .error msg => row.status = "failed" ∧ row.records_processed = 0 ∧
       row.error_message = some msg
   | .ok (h, d, t) =>
     if (h.isSome || d.isSome || t.isSome) = true then
       match (loadData db h d t runDate now).2 with
       | some e => row.status = "failed" ∧ row.records_processed = 0 ∧
           row.error_message = some e
       | none => row.status = "success" ∧
           row.records_processed = okRecords h d ∧ row.error_message = none
     else row.status = "success" ∧ row.records_processed = 0 ∧
       row.error_message = none)

theorem logEtlRun_ledger (db : Database) (c : String) (rd : ℕ) (s : String)
    (rec : ℕ) (err : Option String) :
    ∃ row, (logEtlRun db c rd s rec err).ledger = db.ledger ++ [row] ∧
      row.chain_id = c ∧ row.run_date = rd ∧ row.status = s ∧
      row.records_processed = rec ∧ row.error_message = err :=
  ⟨_, rfl, rfl, rfl, rfl, rfl, rfl⟩

theorem loadData_ledger (db : Database) (h : Option (List HourlyRow))
    (d : Option (List DailyRow)) (t : Option (List WindowTotalRow))
    (runDate now : ℕ) :
    (loadData db h d t runDate now).1.ledger = db.ledger := by
  unfold loadData
  cases loadHourly db.hourly h runDate with
  | mk h2 eh =>
    cases eh with
    | some e => rfl
    | none =>
      cases loadDaily db.daily d runDate with
      | mk d2 ed =>
        cases ed with
        | some e => rfl
        | none => rfl

theorem processChainDay_ledger (db : Database) (beh : String → ExtractOutcome)
    (c : String) (runDate now : ℕ) :
    ∃ row, (processChainDay db beh c runDate now).ledger = db.ledger ++ [row] ∧
      ledgerRowSpec db beh runDate now c row := by
  unfold processChainDay
  cases hbc : beh c with
  | error msg =>
    obtain ⟨row, hrl, hc, hrd, hst, hrec, herrm⟩ :=
      logEtlRun_ledger db c runDate "failed" 0 (some msg)
    refine ⟨row, hrl, hc, hrd, ?_⟩
    rw [hbc]
    exact ⟨hst, hrec, herrm⟩
  | ok triple =>
    obtain ⟨h, d, t⟩ := triple
    dsimp only
    by_cases hs : (h.isSome || d.isSome || t.isSome) = true
    · rw [if_pos hs]
      cases herr : (loadData db h d t runDate now).2 with
      | some e =>
        obtain ⟨row, hrl, hc, hrd, hst, hrec, herrm⟩ :=
          logEtlRun_ledger (loadData db h d t runDate now).1 c runDate
            "failed" 0 (some e)
        refine ⟨row, ?_, hc, hrd, ?_⟩
        · rw [hrl, loadData_ledger]
        · rw [hbc]
          dsimp only
          rw [if_pos hs, herr]
          exact ⟨hst, hrec, herrm⟩
      | none =>
        obtain ⟨row, hrl, hc, hrd, hst, hrec, herrm⟩ :=
          logEtlRun_ledger (loadData db h d t runDate now).1 c runDate
            "success" (okRecords h d) none
        refine ⟨row, ?_, hc, hrd, ?_⟩
        · rw [hrl, loadData_ledger]
        · rw [hbc]
          dsimp only
          rw [if_pos hs, herr]
          exact ⟨hst, hrec, herrm⟩
    · rw [if_neg hs]
      obtain ⟨row, hrl, hc, hrd, hst, hrec, herrm⟩ :=
        logEtlRun_ledger db c runDate "success" 0 none
      refine ⟨row, hrl, hc, hrd, ?_⟩
      rw [hbc]
      dsimp only
      rw [if_neg hs]
      exact ⟨hst, hrec, herrm⟩

/-- The run-ledger trace of one orchestration pass: one appended row per
chain in order, each satisfying [[ledgerRowSpec]] at the database state
its attempt ran on. -/
def ledgerTrace (beh : String → ExtractOutcome) (runDate now : ℕ) :
    Database → List String → List EtlLogRow → Prop
  | _, [], tail => tail = []
  | db, c :: cs, tail =>
    ∃ row rest, tail = row :: rest ∧ ledgerRowSpec db beh runDate now c row ∧
      ledgerTrace beh runDate now (processChainDay db beh c runDate now) cs rest

theorem processSingleDay_ledger_trace : ∀ (chains : List String) (db : Database)
    (beh : String → ExtractOutcome) (runDate now : ℕ),
    ∃ tail, (processSingleDay db chains beh runDate now).ledger =
      db.ledger ++ tail ∧ tail.length = chains.length ∧
      ledgerTrace beh runDate now db chains tail := by
  intro chains
  induction chains with
  | nil =>
    intro db beh runDate now
    exact ⟨[], by simp [processSingleDay], rfl, rfl⟩
  | cons c cs ih =>
    intro db beh runDate now
    obtain ⟨row, hrow, hspec⟩ := processChainDay_ledger db beh c runDate now
    obtain ⟨tail, hled, hlen, htrace⟩ :=
      ih (processChainDay db beh c runDate now) beh runDate now
    refine ⟨row :: tail, ?_, by simp [hlen], row, tail, rfl, hspec, htrace⟩
    show (processSingleDay (processChainDay db beh c runDate now) cs
      beh runDate now).ledger = _
    rw [hled, hrow, List.append_assoc]
    rfl

/-- C5: every (chain_id, run_date) attempt of the orchestration loop
appends exactly one run-ledger row — per chain in order, a `success`
row with records_processed = hourly row count + daily row count (0 for
the all-sentinel "no data" outcome, still success) when neither the
extraction outcome nor the load raised, and a `failed` row carrying the
stringified error when the extraction raised or the load raised a
duplicate-key constraint error — so no chain/date is ever skipped
without an audit row. -/
theorem claim5_one_ledger_row_per_attempt (chains : List String) (db : Database)
    (beh : String → ExtractOutcome) (runDate now : ℕ) :
    ∃ tail, (processSingleDay db chains beh runDate now).ledger =
      db.ledger ++ tail ∧ tail.length = chains.length ∧
      ledgerTrace beh runDate now db chains tail :=
  processSingleDay_ledger_trace chains db beh runDate now

theorem ledgerTrace_sentinel (beh : String → ExtractOutcome) (runDate now : ℕ)
    (hbeh : ∀ c, beh c = .ok (none, none, none)) :
    ∀ (chains : List String) (db : Database) (tail : List EtlLogRow),
      ledgerTrace beh runDate now db chains tail →
      ∀ row ∈ tail, row.status = "success" ∧ row.records_processed = 0 ∧
        row.error_message = none := by
  intro chains
  induction chains with
  | nil =>
    intro db tail ht row hrow
    have h0 : tail = [] := ht
    subst h0
    cases hrow
  | cons c cs ih =>
    intro db tail ht row hrow
    obtain ⟨row0, rest, rfl, hspec, htr⟩ := ht
    rcases List.mem_cons.mp hrow with rfl | hmem
    · obtain ⟨_, _, hm⟩ := hspec
      rw [hbeh c] at hm
      simpa using hm
    · exact ih (processChainDay db beh c runDate now) rest htr row hmem

/-- C10: with an empty excluded-token list the generated exclusion filter
string is empty, so every one of the three queries is malformed (a
dangling AND), each sub-extraction degrades to the "no data" sentinel,
extraction returns the all-sentinel triple, and every ledger row of the
run is still `success` with 0 records. -/
theorem claim10_empty_exclusions (db : Database) (chains : List String)
    (files : List String) (srcRows : List SourceRecord) (runDate now : ℕ)
    (hf : files ≠ []) :
    exclusionFilter [] = "" ∧
    (∀ c, extractDexUsage c files srcRows [] = (none, none, none)) ∧
    (∃ tail,
      (processSingleDay db chains
        (fun c => .ok (extractDexUsage c files srcRows [])) runDate now).ledger =
        db.ledger ++ tail ∧
      tail.length = chains.length ∧
      ∀ row ∈ tail, row.status = "success" ∧ row.records_processed = 0 ∧
        row.error_message = none) := by
  have hext : ∀ c, extractDexUsage c files srcRows [] = (none, none, none) := by
    intro c
    cases files with
    | nil => exact absurd rfl hf
    | cons f fs => rfl
  refine ⟨rfl, hext, ?_⟩
  obtain ⟨tail, hled, hlen, htr⟩ := processSingleDay_ledger_trace chains db
    (fun c => .ok (extractDexUsage c files srcRows [])) runDate now
  refine ⟨tail, hled, hlen, ?_⟩
  intro row hrow
  exact ledgerTrace_sentinel _ runDate now (fun c => by simp [hext c])
    chains db tail htr row hrow

theorem claim10_witness :
    (["f1"] : List String) ≠ [] ∧
    (exclusionFilter [] = "" ∧
     (∀ c, extractDexUsage c ["f1"] [] [] = (none, none, none)) ∧
     (∃ tail,
       (processSingleDay ⟨[], [], [], [], 1⟩ ["sol"]
         (fun c => .ok (extractDexUsage c ["f1"] [] [])) 738885 7).ledger =
         ([] : List EtlLogRow) ++ tail ∧
       tail.length = (["sol"] : List String).length ∧
       ∀ row ∈ tail, row.status = "success" ∧ row.records_processed = 0 ∧
         row.error_message = none)) :=
  ⟨by decide,
   claim10_empty_exclusions ⟨[], [], [], [], 1⟩ ["sol"] ["f1"] [] 738885 7
     (by decide)⟩

/-!
The exclusion filter semantics.
-/

theorem keepRecord_iff (excluded : List String) (r : SourceRecord) :
    keepRecord excluded r = true ↔
      (r.request.isSome = true ∧
        ∀ t ∈ excluded, r.inputToken ≠ t ∧ r.outputToken ≠ t) := by
  simp [keepRecord, List.all_eq_true]

theorem extractedLeaves_singleton (excluded : List String) (r : SourceRecord) :
    extractedLeaves excluded [r] =
      if keepRecord excluded r then recordLeaves r else [] := by
  cases hk : keepRecord excluded r <;>
    simp [extractedLeaves, List.filter, hk]

/-- C3 (amended): a record whose input or output token equals ANY one of
the excluded tokens is excluded from all three aggregations (the AND of
the per-token inequality clauses fails as soon as one clause fails); a
record matching none of the excluded tokens — with a non-null payload
and at least one dex leaf — contributes to all three. -/
theorem claim3_exclusion_semantics (chain : String) (excluded : List String)
    (r : SourceRecord) :
    ((∃ t ∈ excluded, r.inputToken = t ∨ r.outputToken = t) →
      hourlyAgg chain excluded [r] = [] ∧ dailyAgg chain excluded [r] = [] ∧
        totalAgg chain excluded [r] = []) ∧
    ((∀ t ∈ excluded, r.inputToken ≠ t ∧ r.outputToken ≠ t) →
      r.request.isSome = true → recordLeaves r ≠ [] →
      hourlyAgg chain excluded [r] ≠ [] ∧ dailyAgg chain excluded [r] ≠ [] ∧
        totalAgg chain excluded [r] ≠ []) := by
  constructor
  · intro hmatch
    have hk : keepRecord excluded r = false := by
      cases hkr : keepRecord excluded r with
      | false => rfl
      | true =>
        exfalso
        obtain ⟨t, ht, hor⟩ := hmatch
        obtain ⟨hne1, hne2⟩ := ((keepRecord_iff excluded r).mp hkr).2 t ht
        rcases hor with hor | hor
        · exact hne1 hor
        · exact hne2 hor
    have hl : extractedLeaves excluded [r] = [] := by
      rw [extractedLeaves_singleton, hk]
      rfl
    refine ⟨?_, ?_, ?_⟩ <;> simp [hourlyAgg, dailyAgg, totalAgg, hl]
  · intro hforall hreq hleaf
    have hk : keepRecord excluded r = true :=
      (keepRecord_iff excluded r).mpr ⟨hreq, hforall⟩
    have hl : extractedLeaves excluded [r] = recordLeaves r := by
      rw [extractedLeaves_singleton, hk]
      rfl
    refine ⟨?_, ?_, ?_⟩ <;>
      simp [hourlyAgg, dailyAgg, totalAgg, hl, hleaf]

/-- Concrete record for C3: input token "A" matches the first of the two
excluded tokens but not the second, output token matches none, and the
payload carries one dex leaf. -/
def c3Record : SourceRecord :=
  { date := 738885, hour := 1, orderId := 5,
    request := some { routePlans := [{ subRouters := [{ dexes :=
      [{ dex := some "Orca", weight := 2 }] }] }] },
    inputToken := "A", outputToken := "C" }

/-- Concrete record for C3 matching no excluded token. -/
def c3CleanRecord : SourceRecord :=
  { date := 738885, hour := 1, orderId := 6,
    request := some { routePlans := [{ subRouters := [{ dexes :=
      [{ dex := some "Orca", weight := 2 }] }] }] },
    inputToken := "X", outputToken := "C" }

/-- C3 counterexample: the record matches only SOME (one of two) excluded
tokens — input "A" of excluded ["A", "B"], output matching neither — yet
it is excluded from all three aggregations, contradicting the claim that
it would still be included. -/
theorem claim3_counterexample :
    (c3Record.inputToken = "A" ∧ c3Record.outputToken = "C" ∧
     c3Record.inputToken ≠ "B" ∧ c3Record.outputToken ≠ "A" ∧
     c3Record.outputToken ≠ "B" ∧ recordLeaves c3Record ≠ []) ∧
    hourlyAgg "sol" ["A", "B"] [c3Record] = [] ∧
    dailyAgg "sol" ["A", "B"] [c3Record] = [] ∧
    totalAgg "sol" ["A", "B"] [c3Record] = [] := by
  decide

theorem claim3_witness :
    ((∃ t ∈ ["A", "B"], c3Record.inputToken = t ∨ c3Record.outputToken = t) ∧
      (hourlyAgg "sol" ["A", "B"] [c3Record] = [] ∧
       dailyAgg "sol" ["A", "B"] [c3Record] = [] ∧
       totalAgg "sol" ["A", "B"] [c3Record] = [])) ∧
    ((∀ t ∈ ["A", "B"], c3CleanRecord.inputToken ≠ t ∧ c3CleanRecord.outputToken ≠ t) ∧
      (hourlyAgg "sol" ["A", "B"] [c3CleanRecord] ≠ [] ∧
       dailyAgg "sol" ["A", "B"] [c3CleanRecord] ≠ [] ∧
       totalAgg "sol" ["A", "B"] [c3CleanRecord] ≠ [])) :=
  ⟨⟨by decide, (claim3_exclusion_semantics "sol" ["A", "B"] c3Record).1 (by decide)⟩,
   ⟨by decide, (claim3_exclusion_semantics "sol" ["A", "B"] c3CleanRecord).2
     (by decide) (by decide) (by decide)⟩⟩

/-!
The Total merge (C1): per-row additive upsert facts.
-/

theorem find?_congr_fn {α : Type} (p q : α → Bool) (h : ∀ a, p a = q a) :
    ∀ l : List α, l.find? p = l.find? q := by
  intro l
  induction l with
  | nil => rfl
  | cons x xs ih => rw [List.find?_cons, List.find?_cons, h x, ih]

/-- The updated-row transform of the UPDATE branch of the upsert, for the
fetched existing row `ex`. -/
def mergeUpdate (ex : TotalRow) (w : WindowTotalRow) (now : ℕ)
    (r : TotalRow) : TotalRow :=
  if decide (r.chain_id = w.chain_id) && decide (r.dex_name = w.dex_name) then
    { r with usage_count := ex.usage_count + w.usage_count,
             total_weight := r.total_weight + w.total_weight,
             unique_orders := r.unique_orders + w.unique_orders,
             last_updated := now }
  else r

theorem mergeUpdate_key (ex : TotalRow) (w : WindowTotalRow) (now : ℕ)
    (r : TotalRow) : (mergeUpdate ex w now r).chain_id = r.chain_id ∧
      (mergeUpdate ex w now r).dex_name = r.dex_name := by
  unfold mergeUpdate
  by_cases h : (decide (r.chain_id = w.chain_id) && decide (r.dex_name = w.dex_name)) = true
  · rw [if_pos h]
    exact ⟨rfl, rfl⟩
  · rw [if_neg h]
    exact ⟨rfl, rfl⟩

theorem mergeTotalRow_as_map (tbl : List TotalRow) (w : WindowTotalRow)
    (runDate now : ℕ) (ex : TotalRow)
    (hf : findTotal tbl w.chain_id w.dex_name = some ex) :
    mergeTotalRow tbl w runDate now = tbl.map (mergeUpdate ex w now) := by
  unfold mergeTotalRow
  rw [hf]
  rfl

theorem findTotal_map_mergeUpdate (tbl : List TotalRow) (ex : TotalRow)
    (w : WindowTotalRow) (now : ℕ) (c n : String) :
    findTotal (tbl.map (mergeUpdate ex w now)) c n =
      (findTotal tbl c n).map (mergeUpdate ex w now) := by
  unfold findTotal
  rw [List.find?_map]
  congr 1
  apply find?_congr_fn
  intro r
  obtain ⟨h1, h2⟩ := mergeUpdate_key ex w now r
  simp [h1, h2]

theorem findTotal_mergeTotalRow_ne (tbl : List TotalRow) (w : WindowTotalRow)
    (runDate now : ℕ) (c n : String)
    (hne : ¬(w.chain_id = c ∧ w.dex_name = n)) :
    findTotal (mergeTotalRow tbl w runDate now) c n = findTotal tbl c n := by
  cases hf : findTotal tbl w.chain_id w.dex_name with
  | some ex =>
    rw [mergeTotalRow_as_map tbl w runDate now ex hf,
      findTotal_map_mergeUpdate]
    cases hres : findTotal tbl c n with
    | none => rfl
    | some r =>
      have hp := List.find?_some hres
      simp only [Bool.and_eq_true, decide_eq_true_eq] at hp
      have : mergeUpdate ex w now r = r := by
        unfold mergeUpdate
        rw [if_neg]
        simp only [Bool.and_eq_true, decide_eq_true_eq, not_and]
        intro hcw
        intro hdw
        exact hne ⟨hcw ▸ hp.1, hdw ▸ hp.2⟩
      simp [this]
  | none =>
    unfold mergeTotalRow
    rw [hf]
    unfold findTotal
    rw [List.find?_append]
    have hnew : List.find? (fun (r : TotalRow) =>
        decide (r.chain_id = c) && decide (r.dex_name = n))
        [insertedTotalRow w runDate now] = none := by
      rw [List.find?_cons]
      have hc : (decide ((insertedTotalRow w runDate now).chain_id = c) &&
          decide ((insertedTotalRow w runDate now).dex_name = n)) = false := by
        simp only [Bool.and_eq_false_iff, decide_eq_false_iff_not, insertedTotalRow]
        by_cases h1 : w.chain_id = c
        · exact Or.inr (fun h2 => hne ⟨h1, h2⟩)
        · exact Or.inl h1
      rw [hc]
      rfl
    rw [hnew, Option.or_none]

/-- What C1 asserts row-by-row about the merged table entry for window
row `w`, relative to the pre-merge table: additive counters and a
refreshed last_updated when a row existed, the window values with
first_seen = run_date when none did. -/
def mergeSpec (tbl : List TotalRow) (runDate now : ℕ) (w : WindowTotalRow)
    (r : TotalRow) : Prop :=
  match findTotal tbl w.chain_id w.dex_name with
  | some ex =>
      r.usage_count = ex.usage_count + w.usage_count ∧
      r.total_weight = ex.total_weight + w.total_weight ∧
      r.unique_orders = ex.unique_orders + w.unique_orders ∧
      r.first_seen = ex.first_seen ∧ r.last_updated = now
  | none =>
      r.usage_count = w.usage_count ∧ r.total_weight = w.total_weight ∧
      r.unique_orders = w.unique_orders ∧ r.first_seen = some runDate ∧
      r.last_updated = now

theorem findTotal_append (l1 l2 : List TotalRow) (c n : String) :
    findTotal (l1 ++ l2) c n = (findTotal l1 c n).or (findTotal l2 c n) :=
  List.find?_append

theorem findTotal_mergeTotalRow_self (tbl : List TotalRow) (w : WindowTotalRow)
    (runDate now : ℕ) :
    ∃ r, findTotal (mergeTotalRow tbl w runDate now) w.chain_id w.dex_name
        = some r ∧ mergeSpec tbl runDate now w r := by
  cases hf : findTotal tbl w.chain_id w.dex_name with
  | some ex =>
    rw [mergeTotalRow_as_map tbl w runDate now ex hf, findTotal_map_mergeUpdate, hf]
    refine ⟨mergeUpdate ex w now ex, rfl, ?_⟩
    unfold mergeSpec
    rw [hf]
    have hf2 : List.find? (fun (r : TotalRow) =>
        decide (r.chain_id = w.chain_id) && decide (r.dex_name = w.dex_name))
        tbl = some ex := hf
    have hp0 := List.find?_some hf2
    unfold mergeUpdate
    rw [if_pos (show (decide (ex.chain_id = w.chain_id) &&
      decide (ex.dex_name = w.dex_name)) = true by exact hp0)]
    exact ⟨rfl, rfl, rfl, rfl, rfl⟩
  | none =>
    unfold mergeTotalRow
    rw [hf]
    rw [findTotal_append, hf]
    have hone : findTotal [insertedTotalRow w runDate now]
        w.chain_id w.dex_name = some (insertedTotalRow w runDate now) := by
      unfold findTotal
      rw [List.find?_cons]
      have hc : (decide ((insertedTotalRow w runDate now).chain_id = w.chain_id) &&
          decide ((insertedTotalRow w runDate now).dex_name = w.dex_name)) = true := by
        simp [insertedTotalRow]
      rw [hc]
    rw [hone]
    refine ⟨_, rfl, ?_⟩
    unfold mergeSpec
    rw [hf]
    exact ⟨rfl, rfl, rfl, rfl, rfl⟩

theorem findTotal_fold_ne (runDate now : ℕ) :
    ∀ (ws : List WindowTotalRow) (tbl : List TotalRow) (c n : String),
    (∀ w2 ∈ ws, ¬(w2.chain_id = c ∧ w2.dex_name = n)) →
    findTotal (ws.foldl (fun t w2 => mergeTotalRow t w2 runDate now) tbl) c n =
      findTotal tbl c n := by
  intro ws
  induction ws with
  | nil => intro tbl c n _; rfl
  | cons w0 ws ih =>
    intro tbl c n hall
    rw [List.foldl_cons,
      ih (mergeTotalRow tbl w0 runDate now) c n
        (fun w2 hw2 => hall w2 (List.mem_cons_of_mem _ hw2))]
    exact findTotal_mergeTotalRow_ne tbl w0 runDate now c n
      (hall w0 (List.mem_cons_self _ _))

theorem fold_merge_spec (runDate now : ℕ) :
    ∀ (df : List WindowTotalRow) (tbl : List TotalRow),
    df.Pairwise (fun a b => ¬(a.chain_id = b.chain_id ∧ a.dex_name = b.dex_name)) →
    ∀ w ∈ df, ∃ r,
      findTotal (df.foldl (fun t w2 => mergeTotalRow t w2 runDate now) tbl)
        w.chain_id w.dex_name = some r ∧ mergeSpec tbl runDate now w r := by
  intro df
  induction df with
  | nil => intro tbl _ w hw; cases hw
  | cons w0 ws ih =>
    intro tbl hpw w hw
    rw [List.foldl_cons]
    rcases List.mem_cons.mp hw with rfl | hw2
    · obtain ⟨r, hr, hspec⟩ := findTotal_mergeTotalRow_self tbl w runDate now
      refine ⟨r, ?_, hspec⟩
      rw [findTotal_fold_ne runDate now ws (mergeTotalRow tbl w runDate now)
        w.chain_id w.dex_name ?_, hr]
      intro w2 hw2 hkey
      exact (List.pairwise_cons.mp hpw).1 w2 hw2 ⟨hkey.1.symm, hkey.2.symm⟩
    · obtain ⟨r, hr, hspec⟩ := ih (mergeTotalRow tbl w0 runDate now)
        (List.pairwise_cons.mp hpw).2 w hw2
      refine ⟨r, hr, ?_⟩
      have hne : ¬(w0.chain_id = w.chain_id ∧ w0.dex_name = w.dex_name) :=
        (List.pairwise_cons.mp hpw).1 w hw2
      unfold mergeSpec at hspec ⊢
      rw [findTotal_mergeTotalRow_ne tbl w0 runDate now
        w.chain_id w.dex_name hne] at hspec
      exact hspec

theorem findTotal_map_keep (tbl : List TotalRow) (f : TotalRow → TotalRow)
    (hkey : ∀ r, (f r).chain_id = r.chain_id ∧ (f r).dex_name = r.dex_name)
    (c n : String) :
    findTotal (tbl.map f) c n = (findTotal tbl c n).map f := by
  unfold findTotal
  rw [List.find?_map]
  congr 1
  apply find?_congr_fn
  intro r
  obtain ⟨h1, h2⟩ := hkey r
  simp [h1, h2]

theorem pctUpdate_fields (s : ℕ) (chainId : String) (r : TotalRow) :
    (pctUpdate s chainId r).chain_id = r.chain_id ∧
    (pctUpdate s chainId r).dex_name = r.dex_name ∧
    (pctUpdate s chainId r).usage_count = r.usage_count ∧
    (pctUpdate s chainId r).total_weight = r.total_weight ∧
    (pctUpdate s chainId r).unique_orders = r.unique_orders ∧
    (pctUpdate s chainId r).first_seen = r.first_seen ∧
    (pctUpdate s chainId r).last_updated = r.last_updated := by
  unfold pctUpdate
  by_cases h : (decide (r.chain_id = chainId)) = true
  · rw [if_pos h]
    exact ⟨rfl, rfl, rfl, rfl, rfl, rfl, rfl⟩
  · rw [if_neg h]
    exact ⟨rfl, rfl, rfl, rfl, rfl, rfl, rfl⟩

theorem findTotal_recomputePct (tbl : List TotalRow) (chainId c n : String)
    (r : TotalRow) (h : findTotal tbl c n = some r) :
    ∃ q, findTotal (recomputePct tbl chainId) c n = some q ∧
      q.usage_count = r.usage_count ∧ q.total_weight = r.total_weight ∧
      q.unique_orders = r.unique_orders ∧ q.first_seen = r.first_seen ∧
      q.last_updated = r.last_updated := by
  unfold recomputePct
  rw [findTotal_map_keep tbl _ (fun x =>
    ⟨(pctUpdate_fields _ _ x).1, (pctUpdate_fields _ _ x).2.1⟩) c n, h]
  obtain ⟨_, _, h3, h4, h5, h6, h7⟩ :=
    pctUpdate_fields (chainUsageSum tbl chainId) chainId r
  exact ⟨_, rfl, h3, h4, h5, h6, h7⟩

/-- C1: the Total merge is additive and never replacing — for every
window-level total row, if a TotalAggregate row with the same
(chain_id, dex_name) already existed, the merged table's row for that
key carries existing + window values for usage_count, total_weight and
unique_orders, keeps first_seen, and has last_updated refreshed to the
merge instant; if none existed, the merged table's row carries the
window values as-is with first_seen = run_date.  (The percentage field
is subsequently recomputed chain-wide, which does not touch these
fields.)  The window rows carry pairwise distinct (chain_id, dex_name)
keys, as a GROUP BY dex_name result under one chain does. -/
theorem claim1_total_merge_additive (tbl : List TotalRow)
    (df : List WindowTotalRow) (runDate now : ℕ)
    (hkeys : df.Pairwise (fun a b =>
      ¬(a.chain_id = b.chain_id ∧ a.dex_name = b.dex_name))) :
    ∀ w ∈ df, ∃ r,
      findTotal (loadTotal tbl (some df) runDate now) w.chain_id w.dex_name
        = some r ∧ mergeSpec tbl runDate now w r := by
  intro w hw
  cases df with
  | nil => cases hw
  | cons w0 ws =>
    show ∃ r, findTotal (recomputePct ((w0 :: ws).foldl
      (fun t w2 => mergeTotalRow t w2 runDate now) tbl) w0.chain_id)
      w.chain_id w.dex_name = some r ∧ _
    obtain ⟨r, hr, hspec⟩ := fold_merge_spec runDate now (w0 :: ws) tbl hkeys w hw
    obtain ⟨q, hq, h3, h4, h5, h6, h7⟩ :=
      findTotal_recomputePct _ w0.chain_id w.chain_id w.dex_name r hr
    refine ⟨q, hq, ?_⟩
    unfold mergeSpec at hspec ⊢
    cases hf : findTotal tbl w.chain_id w.dex_name with
    | some ex =>
      rw [hf] at hspec
      exact ⟨h3.trans hspec.1, h4.trans hspec.2.1, h5.trans hspec.2.2.1,
        h6.trans hspec.2.2.2.1, h7.trans hspec.2.2.2.2⟩
    | none =>
      rw [hf] at hspec
      exact ⟨h3.trans hspec.1, h4.trans hspec.2.1, h5.trans hspec.2.2.1,
        h6.trans hspec.2.2.2.1, h7.trans hspec.2.2.2.2⟩

/-- Existing total row for the C1 witness (usage_count = 100). -/
def c1ExistingRow : TotalRow :=
  { chain_id := "sol", dex_name := "Raydium", usage_count := 100,
    total_weight := 50, unique_orders := 10, percentage := 100,
    first_seen := some 738800, last_updated := 3 }

/-- Window total row for the C1 witness hitting the existing key
(usage_count = 20, so the merge must yield 120). -/
def c1WindowRow : WindowTotalRow :=
  { chain_id := "sol", dex_name := "Raydium", usage_count := 20,
    total_weight := 5, unique_orders := 3, percentage := 74 }

/-- Window total row for the C1 witness with a fresh key. -/
def c1NewWindowRow : WindowTotalRow :=
  { chain_id := "sol", dex_name := "Orca", usage_count := 7,
    total_weight := 2, unique_orders := 1, percentage := 26 }

theorem claim1_witness :
    ([c1WindowRow, c1NewWindowRow].Pairwise (fun a b =>
      ¬(a.chain_id = b.chain_id ∧ a.dex_name = b.dex_name))) ∧
    (∃ r, findTotal (loadTotal [c1ExistingRow]
        (some [c1WindowRow, c1NewWindowRow]) 738885 9)
        c1WindowRow.chain_id c1WindowRow.dex_name = some r ∧
      mergeSpec [c1ExistingRow] 738885 9 c1WindowRow r) ∧
    (∃ r, findTotal (loadTotal [c1ExistingRow]
        (some [c1WindowRow, c1NewWindowRow]) 738885 9)
        c1NewWindowRow.chain_id c1NewWindowRow.dex_name = some r ∧
      mergeSpec [c1ExistingRow] 738885 9 c1NewWindowRow r) ∧
    (findTotal (loadTotal [c1ExistingRow]
        (some [c1WindowRow, c1NewWindowRow]) 738885 9) "sol" "Raydium").map
      (fun r => r.usage_count) = some 120 :=
  ⟨by decide,
   claim1_total_merge_additive [c1ExistingRow] [c1WindowRow, c1NewWindowRow]
     738885 9 (by decide) c1WindowRow (List.mem_cons_self _ _),
   claim1_total_merge_additive [c1ExistingRow] [c1WindowRow, c1NewWindowRow]
     738885 9 (by decide) c1NewWindowRow
     (List.mem_cons_of_mem _ (List.mem_cons_self _ _)),
   by decide⟩

/-!
The chain-scoped percentage invariant (C4).
-/

theorem round2_sub_le (q : ℚ) : |round2 q - q| ≤ 1 / 200 := by
  unfold round2
  have h1 : ((⌊q * 100 + 1 / 2⌋ : ℤ) : ℚ) ≤ q * 100 + 1 / 2 :=
    Int.floor_le _
  have h2 : q * 100 + 1 / 2 - 1 < ((⌊q * 100 + 1 / 2⌋ : ℤ) : ℚ) :=
    Int.sub_one_lt_floor _
  rw [abs_le]
  constructor
  · linarith
  · linarith

theorem sum_round2_close : ∀ qs : List ℚ,
    |(qs.map round2).sum - qs.sum| ≤ (qs.length : ℚ) / 200 := by
  intro qs
  induction qs with
  | nil => simp
  | cons q qs ih =>
    simp only [List.map_cons, List.sum_cons, List.length_cons]
    have h1 := round2_sub_le q
    have h2 : round2 q + (qs.map round2).sum - (q + qs.sum) =
        (round2 q - q) + ((qs.map round2).sum - qs.sum) := by ring
    rw [h2]
    refine le_trans (abs_add _ _) ?_
    push_cast
    linarith

theorem filter_of_map {α β : Type} (f : α → β) (p : β → Bool) :
    ∀ l : List α, (l.map f).filter p = (l.filter (fun x => p (f x))).map f := by
  intro l
  induction l with
  | nil => rfl
  | cons x xs ih =>
    simp only [List.map_cons, List.filter_cons]
    cases hp : p (f x) with
    | true => simp [hp, ih]
    | false => simp [hp, ih]

/-- After the chain-scoped recomputation, the chain's rows are exactly
the chain's pre-recomputation rows, each with percentage set to
round2(usage_count * 100 / chain sum). -/
theorem recomputePct_chain_rows (tbl : List TotalRow) (c : String) :
    (recomputePct tbl c).filter (fun r => decide (r.chain_id = c)) =
      (tbl.filter (fun r => decide (r.chain_id = c))).map
        (pctUpdate (chainUsageSum tbl c) c) := by
  unfold recomputePct
  rw [filter_of_map]
  congr 1
  apply List.filter_congr
  intro r _
  congr 1
  exact ((pctUpdate_fields (chainUsageSum tbl c) c r).1) ▸ rfl

set_option maxHeartbeats 1600000 in
theorem recomputePct_sum_close (tbl : List TotalRow) (c : String)
    (hpos : 0 < chainUsageSum tbl c) :
    |(((recomputePct tbl c).filter (fun r => decide (r.chain_id = c))).map
        (fun r => r.percentage)).sum - 100| ≤
      ((((recomputePct tbl c).filter
        (fun r => decide (r.chain_id = c))).length : ℚ)) / 200 := by
  rw [recomputePct_chain_rows tbl c]
  have hmem : ∀ r ∈ tbl.filter (fun r => decide (r.chain_id = c)),
      r.chain_id = c := by
    intro r hr
    have := List.of_mem_filter hr
    exact of_decide_eq_true this
  have hpct : ((tbl.filter (fun r => decide (r.chain_id = c))).map
      (pctUpdate (chainUsageSum tbl c) c)).map (fun r => r.percentage) =
      (tbl.filter (fun r => decide (r.chain_id = c))).map (fun r =>
        round2 ((r.usage_count : ℚ) * 100 / (chainUsageSum tbl c : ℚ))) := by
    rw [List.map_map]
    apply List.map_congr_left
    intro r hr
    show (pctUpdate (chainUsageSum tbl c) c r).percentage = _
    unfold pctUpdate
    rw [if_pos (by exact decide_eq_true (hmem r hr))]
  rw [hpct]
  have hqs : (tbl.filter (fun r => decide (r.chain_id = c))).map (fun r =>
      round2 ((r.usage_count : ℚ) * 100 / (chainUsageSum tbl c : ℚ))) =
      ((tbl.filter (fun r => decide (r.chain_id = c))).map (fun r =>
        (r.usage_count : ℚ) * 100 / (chainUsageSum tbl c : ℚ))).map round2 := by
    rw [List.map_map]
    rfl
  have hsum : ((tbl.filter (fun r => decide (r.chain_id = c))).map (fun r =>
      (r.usage_count : ℚ) * 100 / (chainUsageSum tbl c : ℚ))).sum = 100 := by
    have hform : ∀ r : TotalRow,
        (r.usage_count : ℚ) * 100 / (chainUsageSum tbl c : ℚ) =
        (r.usage_count : ℚ) * (100 / (chainUsageSum tbl c : ℚ)) := by
      intro r
      ring
    have hmc : (tbl.filter (fun r => decide (r.chain_id = c))).map (fun r =>
        (r.usage_count : ℚ) * 100 / (chainUsageSum tbl c : ℚ)) =
        (tbl.filter (fun r => decide (r.chain_id = c))).map (fun r =>
        (r.usage_count : ℚ) * (100 / (chainUsageSum tbl c : ℚ))) :=
      List.map_congr_left (fun r _ => hform r)
    rw [hmc, List.sum_map_mul_right]
    have hcast : ((tbl.filter (fun r => decide (r.chain_id = c))).map (fun r =>
        (r.usage_count : ℚ))).sum = (chainUsageSum tbl c : ℚ) := by
      unfold chainUsageSum
      rw [Nat.cast_list_sum, List.map_map]
      rfl
    rw [hcast]
    have hne : (chainUsageSum tbl c : ℚ) ≠ 0 := by
      have hq : (0 : ℚ) < (chainUsageSum tbl c : ℚ) := by exact_mod_cast hpos
      exact ne_of_gt hq
    field_simp
  rw [hqs]
  nth_rewrite 2 [← hsum]
  have hlen : (((tbl.filter (fun r => decide (r.chain_id = c))).map
      (pctUpdate (chainUsageSum tbl c) c)).length : ℚ) =
      (((tbl.filter (fun r => decide (r.chain_id = c))).map (fun r =>
        (r.usage_count : ℚ) * 100 / (chainUsageSum tbl c : ℚ))).length : ℚ) := by
    simp
  rw [hlen]
  exact sum_round2_close _

/-- C4: immediately after every Total merge, the percentage values of the
merged chain's TotalAggregate rows sum to 100 up to rounding error —
each of the n rows is rounded to 2 decimals, so the sum is within
n × 0.005 of 100 — provided the chain has at least one row with positive
usage_count after the merge. -/
theorem claim4_percentages_sum_to_100 (tbl : List TotalRow)
    (w0 : WindowTotalRow) (ws : List WindowTotalRow) (runDate now : ℕ)
    (hpos : ∃ r ∈ (loadTotal tbl (some (w0 :: ws)) runDate now).filter
      (fun r => decide (r.chain_id = w0.chain_id)), 0 < r.usage_count) :
    |(((loadTotal tbl (some (w0 :: ws)) runDate now).filter
        (fun r => decide (r.chain_id = w0.chain_id))).map
        (fun r => r.percentage)).sum - 100| ≤
      (((loadTotal tbl (some (w0 :: ws)) runDate now).filter
        (fun r => decide (r.chain_id = w0.chain_id))).length : ℚ) / 200 := by
  obtain ⟨r, hr, hru⟩ := hpos
  have hr2 : r ∈ (recomputePct ((w0 :: ws).foldl
      (fun t w2 => mergeTotalRow t w2 runDate now) tbl) w0.chain_id).filter
      (fun r => decide (r.chain_id = w0.chain_id)) := hr
  rw [recomputePct_chain_rows] at hr2
  obtain ⟨r2, hr2m, hre⟩ := List.mem_map.mp hr2
  have husage : r2.usage_count = r.usage_count := by
    rw [← hre]
    exact ((pctUpdate_fields _ _ r2).2.2.1).symm
  have hS : 0 < chainUsageSum ((w0 :: ws).foldl
      (fun t w2 => mergeTotalRow t w2 runDate now) tbl) w0.chain_id := by
    rcases Nat.eq_zero_or_pos (chainUsageSum ((w0 :: ws).foldl
      (fun t w2 => mergeTotalRow t w2 runDate now) tbl) w0.chain_id) with h0 | h
    · exfalso
      unfold chainUsageSum at h0
      have hz := List.sum_eq_zero_iff.mp h0 r2.usage_count
        (List.mem_map_of_mem _ hr2m)
      omega
    · exact h
  exact recomputePct_sum_close ((w0 :: ws).foldl
    (fun t w2 => mergeTotalRow t w2 runDate now) tbl) w0.chain_id hS

/-- Window total row for the C4 witness. -/
def c4WindowRow : WindowTotalRow :=
  { chain_id := "sol", dex_name := "Raydium", usage_count := 20,
    total_weight := 5, unique_orders := 3, percentage := 100 }

theorem claim4_witness :
    (∃ r ∈ (loadTotal [] (some [c4WindowRow]) 738885 9).filter
      (fun r => decide (r.chain_id = c4WindowRow.chain_id)), 0 < r.usage_count) ∧
    |(((loadTotal [] (some [c4WindowRow]) 738885 9).filter
        (fun r => decide (r.chain_id = c4WindowRow.chain_id))).map
        (fun r => r.percentage)).sum - 100| ≤
      (((loadTotal [] (some [c4WindowRow]) 738885 9).filter
        (fun r => decide (r.chain_id = c4WindowRow.chain_id))).length : ℚ) / 200 :=
  ⟨by decide, claim4_percentages_sum_to_100 [] c4WindowRow [] 738885 9 (by decide)⟩
